import Mathlib

/-!
Verification of the batch orchestration core of the Celery strategy-analysis
system, shallowly embedded from the Python sources under `app/`.

Conventions of the embedding:
* Python dicts with a fixed key set become structures; a key that may be
  absent becomes an `Option` field (`none` = key absent).
* Python `None` travelling through result lists becomes `Option`.
* Python floats carry no arithmetic relevant to the verified claims and are
  modelled as rationals; `datetime` instants become natural-number epochs.
* Insertion-ordered Python dicts (used for grouping) become association
  lists where a new key is appended at the end.
-/

namespace CeleryStrategies

/-- Embedding of `SignalType` from `app/models/strategy_models.py`. -/
inductive SignalType where
  | BUY
  | SELL
  | HOLD
deriving DecidableEq, Repr

/-- The dict produced by `StrategyResult.dict()` (`app/models/strategy_models.py`).
Every key of the pydantic model is always present in the dict. -/
structure ResultDict where
  strategy_name : String
  symbol : String
  signal_type : SignalType
  confidence : ℚ
  execution_time : ℚ
  timestamp : ℕ
  price : Option ℚ
  success : Option Bool
deriving DecidableEq, Repr

/-- The mutable fields of the `StrategyManager` singleton
(`app/core/strategy_manager.py`, lines 17-28). -/
structure StrategyManagerState where
  strategy_class_paths : List String
  symbols : List String
deriving DecidableEq, Repr

/-- Embedding of `StrategyManager.add_strategies`: extends the accumulated list. -/
def add_strategies (st : StrategyManagerState) (paths : List String) : StrategyManagerState :=
  { st with strategy_class_paths := st.strategy_class_paths ++ paths }

/-- Embedding of `StrategyManager.add_symbols`: extends the accumulated list. -/
def add_symbols (st : StrategyManagerState) (syms : List String) : StrategyManagerState :=
  { st with symbols := st.symbols ++ syms }

/-- One symbol block of the aggregated result
(`StrategyManager.aggregate_results`, lines 64-70). -/
structure SymbolBlock where
  symbol : String
  strategies : List ResultDict
deriving DecidableEq, Repr

/-- The `summary` dict of `StrategyManager.aggregate_results` (lines 75-81).
`failed_results` is a Python `int` subtraction and may be negative, hence `ℤ`. -/
structure Summary where
  total_symbols : ℕ
  total_strategies : ℕ
  total_results : ℕ
  expected_results : ℕ
  failed_results : ℤ
deriving DecidableEq, Repr

/-- The dict returned by `StrategyManager.aggregate_results` (lines 83-86).
`pubsub` models the key that `process_batch_results` may add later
(`app/core/tasks.py`, line 121); at construction it is absent (`none`). -/
structure AggregatedResult where
  summary : Summary
  results : List SymbolBlock
  pubsub : Option ℕ
deriving DecidableEq, Repr

/-- One step of the grouping loop of `aggregate_results` (lines 59-70): the
insertion-ordered dict `aggregated` is an association list; a missing key is
appended at the end, an existing key's bucket gets the item appended. -/
def addToGroups (groups : List (String × List ResultDict)) (r : ResultDict) :
    List (String × List ResultDict) :=
  if r.symbol ∈ groups.map Prod.fst then
    groups.map (fun g => if g.1 = r.symbol then (g.1, g.2 ++ [r]) else g)
  else
    groups ++ [(r.symbol, [r])]

/-- The full grouping loop of `aggregate_results`: items with a falsy (empty)
`symbol` are skipped (`if not symbol: continue`, lines 60-62). -/
def groupBySymbol (valid : List ResultDict) : List (String × List ResultDict) :=
  valid.foldl (fun gs r => if r.symbol = "" then gs else addToGroups gs r) []

/-- Embedding of `StrategyManager.aggregate_results` (lines 48-86): filters falsy entries,
groups by symbol, and computes the summary from the singleton's accumulated
`_symbols` and `_strategy_class_paths` lists. -/
def aggregate_results (st : StrategyManagerState) (flat_results : List (Option ResultDict)) :
    AggregatedResult :=
  let valid := flat_results.filterMap id
  let expected := st.symbols.length * st.strategy_class_paths.length
  { summary :=
      { total_symbols := (valid.map (fun r => r.symbol)).dedup.length
        total_strategies := st.strategy_class_paths.length
        total_results := valid.length
        expected_results := expected
        failed_results := (expected : ℤ) - (valid.length : ℤ) }
    results := (groupBySymbol valid).map (fun g => { symbol := g.1, strategies := g.2 })
    pubsub := none }

/-- Specification-side description of the grouping order (spec §4.4: "bucket by
`instrument`, preserving first-seen bucket order"): the distinct non-empty
symbols of the input in order of first occurrence. -/
def firstSeenSymbols (valid : List ResultDict) : List String :=
  valid.foldl (fun acc r => if r.symbol = "" ∨ r.symbol ∈ acc then acc else acc ++ [r.symbol]) []

/-! ### Sink adapters -/

/-- Default of `settings.pubsub_channel_batch` (`app/core/settings.py`, line 43). -/
def pubsub_channel_batch : String := "stockanalysis:batch_complete"

/-- The dict returned by `publish_batch_complete`
(`app/database/redis_publisher.py`, lines 144-159). -/
structure PubSubResponse where
  channel : String
  subscriber_count : ℕ
  status : String
  error : Option String
deriving DecidableEq, Repr

/-- Embedding of `publish_batch_complete` (`app/database/redis_publisher.py`, lines 129-159).
The outcome of the underlying Redis `publish` client call is passed in as
`publishOutcome` (`ok n` = message delivered to `n` subscribers, `error e` =
the client raised `e`).  The function catches every exception and converts it
into a `"failed"` response dict with `subscriber_count` 0 — it never raises. -/
def publish_batch_complete (publishOutcome : Except String ℕ) : PubSubResponse :=
  match publishOutcome with
  | .ok n =>
      { channel := pubsub_channel_batch, subscriber_count := n
        status := "success", error := none }
  | .error e =>
      { channel := pubsub_channel_batch, subscriber_count := 0
        status := "failed", error := some e }

/-- The document `save_batch_results` hands to `insert_one`
(`app/database/mongodb.py`, lines 136-144): a fresh dict spreading the batch
data and adding timestamp metadata; the input dict is not modified. -/
structure MongoDocument where
  data : AggregatedResult
  timestamp : ℕ
deriving DecidableEq, Repr

/-- Embedding of `save_batch_results` (`app/database/mongodb.py`, lines 123-157): builds the
document and inserts it.  `insertOutcome` is the outcome of the MongoDB
`insert_one` call (`ok oid` = inserted with that id, `error e` = the driver
raised).  An insertion error is logged and re-raised.  The second component
records the document handed to `insert_one`. -/
def save_batch_results (insertOutcome : Except String ℕ) (now : ℕ)
    (batch_data : AggregatedResult) : Except String ℕ × MongoDocument :=
  (insertOutcome, { data := batch_data, timestamp := now })

/-! ### Batch result processing -/

/-- Embedding of `_has_actionable_signal` (`app/core/tasks.py`, lines 21-29): scans the
aggregated symbol blocks for any entry whose `signal_type` is not `HOLD`. -/
def _has_actionable_signal (batch_result : AggregatedResult) : Bool :=
  batch_result.results.any fun symbol_block =>
    symbol_block.strategies.any fun strategy_entry =>
      strategy_entry.signal_type != SignalType.HOLD

/-- The dict returned by `process_batch_results` (`app/core/tasks.py`,
lines 104-109 and 138): `Option` fields model keys absent from one of the two
return shapes. -/
structure ProcOutput where
  batch_id : Option ℕ
  summary : Option Summary
  skipped : Option Bool
  reason : Option String
deriving DecidableEq, Repr

deriving instance DecidableEq for Except

/-- Observable trace of one `process_batch_results` run: the returned value or
propagated error, whether each Sink operation was invoked, and the batch data
handed to the persistence step. -/
structure ProcTrace where
  result : Except String ProcOutput
  notifyCalled : Bool
  persistCalled : Bool
  persistedData : Option AggregatedResult
deriving DecidableEq, Repr

/-- Embedding of `process_batch_results` (`app/core/tasks.py`, lines 73-145): filters out
falsy entries of the chord result list, aggregates, gates on actionable
signals, then publishes to Redis (adding the returned `subscriber_count` to
the aggregate under the `pubsub` key, line 121) and saves to MongoDB.  The
outcomes of the two external client calls are passed in; `now` is the wall
clock used for the Mongo document metadata. -/
def process_batch_results (st : StrategyManagerState)
    (results : List (Option ResultDict)) (publishOutcome : Except String ℕ)
    (insertOutcome : Except String ℕ) (now : ℕ) : ProcTrace :=
  let valid_results := results.filterMap id
  let aggregated_result := aggregate_results st (valid_results.map some)
  let has_signals := _has_actionable_signal aggregated_result
  if has_signals then
    let pubsub_response := publish_batch_complete publishOutcome
    let aggregated_result :=
      { aggregated_result with pubsub := some pubsub_response.subscriber_count }
    match save_batch_results insertOutcome now aggregated_result with
    | (.error e, _) =>
        { result := .error e, notifyCalled := true, persistCalled := true
          persistedData := some aggregated_result }
    | (.ok batch_id, _) =>
        { result := .ok { batch_id := some batch_id
                          summary := some aggregated_result.summary
                          skipped := none, reason := none }
          notifyCalled := true, persistCalled := true
          persistedData := some aggregated_result }
  else
    { result := .ok { batch_id := none, summary := some aggregated_result.summary
                      skipped := some true
                      reason := some "No actionable signals detected" }
      notifyCalled := false, persistCalled := false, persistedData := none }

/-! ### Batch dispatch -/

/-- A task signature produced by
`StrategyManager.create_task_signatures_with_numbering`
(`app/core/strategy_manager.py`, lines 30-46). -/
structure TaskSignature where
  strategy_path : String
  symbol : String
  task_number : ℕ
  total_tasks : ℕ
deriving DecidableEq, Repr

/-- Embedding of `StrategyManager.create_task_signatures_with_numbering`: nested loop over
symbols then strategies, numbering sequentially from 1, with the precomputed
total attached to every signature. -/
def create_task_signatures_with_numbering (st : StrategyManagerState) : List TaskSignature :=
  let total_tasks := st.symbols.length * st.strategy_class_paths.length
  let pairs := st.symbols.flatMap fun symbol =>
    st.strategy_class_paths.map fun strategy_path => (symbol, strategy_path)
  pairs.enum.map fun p =>
    { strategy_path := p.2.2, symbol := p.2.1, task_number := p.1 + 1
      total_tasks := total_tasks }

/-- The dict returned by `trigger_batch_execution` (`app/core/tasks.py`,
lines 176 and 192).  A `summary` key is never produced by the code; the field
records its absence. -/
structure TriggerOutput where
  status : String
  reason : Option String
  tasks_count : Option ℕ
  summary : Option Summary
deriving DecidableEq, Repr

/-- Observable trace of one `trigger_batch_execution` run: the process-wide
`StrategyManager` singleton state after the run, the returned dict, and
whether the Celery chord (and hence the downstream processing with its Sink
calls) was submitted. -/
structure TriggerTrace where
  state : Option StrategyManagerState
  output : TriggerOutput
  chord_submitted : Bool
deriving DecidableEq, Repr

/-- Embedding of `StrategyManager.__new__`/`__init__` (`app/core/strategy_manager.py`,
lines 12-22): within one process the constructor returns the singleton
instance, freshly initialized with empty lists only if no instance exists yet
(`none` models an uninitialized process). -/
def strategyManagerInstance (process : Option StrategyManagerState) : StrategyManagerState :=
  process.getD { strategy_class_paths := [], symbols := [] }

/-- Embedding of `trigger_batch_execution` (`app/core/tasks.py`, lines 148-199):
obtains the process' `StrategyManager` singleton, extends it with the
configured symbol and strategy lists, creates the numbered task signatures,
and either short-circuits with a skipped result (empty task set, lines
173-176) or submits the chord. -/
def trigger_batch_execution (process : Option StrategyManagerState)
    (symbols strategies : List String) : TriggerTrace :=
  let manager := strategyManagerInstance process
  let manager := add_symbols manager symbols
  let manager := add_strategies manager strategies
  let tasks_sigs := create_task_signatures_with_numbering manager
  if tasks_sigs.isEmpty then
    { state := some manager
      output := { status := "skipped", reason := some "empty_batch"
                  tasks_count := none, summary := none }
      chord_submitted := false }
  else
    { state := some manager
      output := { status := "triggered", reason := none
                  tasks_count := some tasks_sigs.length, summary := none }
      chord_submitted := true }

/-! ### Task executor retry envelope -/

/-- Embedding of `retry_kwargs={"max_retries": 3}` on `execute_strategy_task`
(`app/core/tasks.py`, line 32).  In Celery, `max_retries` bounds the number of
retries after the initial execution. -/
def execute_strategy_task_max_retries : ℕ := 3

/-- Observable trace of the Celery autoretry envelope around one task: the
final outcome (`none` = permanent failure after retry exhaustion, so no result
dict enters the chord's result collection), the number of executions
performed, and the backoff countdowns waited between them. -/
structure RetryTrace (α : Type) where
  outcome : Option α
  attempts : ℕ
  delays : List ℕ
deriving DecidableEq, Repr

/-- Celery's autoretry loop as configured on `execute_strategy_task`
(`autoretry_for=(Exception,)`, `retry_backoff=True`): run attempt `i`; on an
exception, if retries remain, wait and recurse, else fail permanently.  The
countdown cap before the retry following attempt `i` is `2 ^ i` seconds
(backoff base 1, doubling); since `retry_jitter` is not overridden it keeps
its default `True`, and the actual countdown is `random.randrange(cap + 1)` —
a draw in `[0, cap]`, modelled by consuming the random stream `draw` as
`draw i % (2 ^ i + 1)`. -/
def retryLoop {α : Type} (draw : ℕ → ℕ) (evalAttempt : ℕ → Except String α) :
    (retriesLeft : ℕ) → (i : ℕ) → RetryTrace α
  | 0, i =>
    match evalAttempt i with
    | .ok a => { outcome := some a, attempts := i + 1, delays := [] }
    | .error _ => { outcome := none, attempts := i + 1, delays := [] }
  | r + 1, i =>
    match evalAttempt i with
    | .ok a => { outcome := some a, attempts := i + 1, delays := [] }
    | .error _ =>
      let t := retryLoop draw evalAttempt r (i + 1)
      { t with delays := draw i % (2 ^ i + 1) :: t.delays }

/-- The retry envelope of `execute_strategy_task` (`app/core/tasks.py`,
line 32): initial execution plus up to `max_retries` retries.  `evalAttempt i`
is the outcome of the `i`-th execution of the task body (an exception anywhere
in the body — strategy loading, `strategy.execute`, serialization — is
re-raised at line 70 and caught by the autoretry decorator); `draw` is the
random stream feeding the jittered countdowns. -/
def execute_strategy_task_envelope {α : Type} (draw : ℕ → ℕ)
    (evalAttempt : ℕ → Except String α) : RetryTrace α :=
  retryLoop draw evalAttempt execute_strategy_task_max_retries 0

/-! ### Cache store -/

/-- A pickled payload (`pickle.dumps`/`pickle.loads` in
`app/utility/data_provider.py`); pickling is a faithful (inverse) encoding and
a pickled payload is a non-empty byte string, hence always truthy. -/
structure Pickled (α : Type) where
  data : α
deriving DecidableEq, Repr

def pickle_dumps {α : Type} (a : α) : Pickled α := ⟨a⟩

def pickle_loads {α : Type} (p : Pickled α) : α := p.data

/-- The Redis string store used for caching (DB 3), keyed by cache key, each
entry holding the pickled payload and its absolute expiry instant. -/
def RedisStore (α : Type) : Type := List (String × (Pickled α × ℕ))

/-- Redis `SETEX key ttl value` at wall-clock `now`: stores `value` under
`key` with expiry `now + ttl`, overwriting any existing entry for `key`. -/
def redis_setex {α : Type} (store : RedisStore α) (key : String) (ttl : ℕ)
    (value : Pickled α) (now : ℕ) : RedisStore α :=
  (key, (value, now + ttl)) :: store.filter fun e => e.1 != key

/-- Redis `GET key` at wall-clock `now`: returns the stored value if the key
exists and has not expired, else nil (an expired key reads as absent). -/
def redis_get {α : Type} (store : RedisStore α) (key : String) (now : ℕ) :
    Option (Pickled α) :=
  match store.find? (fun e => e.1 == key) with
  | some e => if now < e.2.2 then some e.2.1 else none
  | none => none

/-- Embedding of `CACHE_DURATION` (`app/utility/data_provider.py`, line 26). -/
def CACHE_DURATION : ℕ := 300

/-- Embedding of `_get_cache_key` (`app/utility/data_provider.py`, lines 29-31). -/
def _get_cache_key (symbol : String) (period : ℕ) (interval : String) : String :=
  "stock_data:" ++ symbol ++ ":" ++ toString period ++ ":" ++ interval

/-- Embedding of `_save_to_cache` (`app/utility/data_provider.py`, lines 49-58): pickle the
payload and `setex` it with the fixed TTL. -/
def _save_to_cache {α : Type} (store : RedisStore α) (cache_key : String)
    (data : α) (now : ℕ) : RedisStore α :=
  redis_setex store cache_key CACHE_DURATION (pickle_dumps data) now

/-- Embedding of `_get_from_cache` (`app/utility/data_provider.py`, lines 34-46): `GET` the
key and unpickle; a nil reply (missing or expired key) is a miss (`none`). -/
def _get_from_cache {α : Type} (store : RedisStore α) (cache_key : String)
    (now : ℕ) : Option α :=
  (redis_get store cache_key now).map pickle_loads

/-! ### StrategyResult construction -/

/-- The class-body default of `StrategyResult.timestamp`
(`app/models/strategy_models.py`, line 18): `datetime.now(...)` evaluated
exactly once, when the models module is imported at `import_time`; pydantic
reuses this single value for every construction omitting `timestamp`. -/
def strategyResultDefaultTimestamp (import_time : ℕ) : ℕ := import_time

/-- Construction of a `StrategyResult`: a construction that omits `timestamp`
(`timestamp? = none`) receives the module-import default. -/
def mkStrategyResult (import_time : ℕ) (strategy_name symbol : String)
    (signal_type : SignalType) (confidence execution_time : ℚ)
    (price : Option ℚ) (success : Option Bool) (timestamp? : Option ℕ) :
    ResultDict :=
  { strategy_name, symbol, signal_type, confidence, execution_time
    timestamp := timestamp?.getD (strategyResultDefaultTimestamp import_time)
    price, success }

/-- The successful-branch construction of `EMAStrategy.execute`
(`app/strategies/ema_strategy.py`, lines 96-105), performed at wall-clock
`now`: `timestamp` is omitted, `execution_time` is `now - start_time`, and the
misspelled keyword `sucess=True` is ignored by pydantic, so `success` keeps
its `False` default. -/
def emaStrategyExecuteResult (import_time now start_time : ℕ) (symbol : String)
    (signal_type : SignalType) (confidence : ℚ) (price : Option ℚ) : ResultDict :=
  mkStrategyResult import_time "EMA Crossover Strategy" symbol signal_type
    confidence ((now : ℚ) - (start_time : ℚ)) price (some false) none

/-! ### Concrete fixtures (used by witnesses and counterexamples) -/

/-- A concrete actionable result dict. -/
def sampleBuy : ResultDict :=
  { strategy_name := "EMA Crossover Strategy", symbol := "BTC-USD"
    signal_type := .BUY, confidence := 1, execution_time := 2
    timestamp := 1700000000, price := some 65000, success := some false }

/-- A concrete HOLD result dict. -/
def sampleHold : ResultDict :=
  { strategy_name := "RSIStrategy", symbol := "ETH-USD"
    signal_type := .HOLD, confidence := 0, execution_time := 1
    timestamp := 1700000000, price := some 3000, success := some false }

/-- A concrete manager state: two symbols, one strategy. -/
def sampleState : StrategyManagerState :=
  { strategy_class_paths := ["app.strategies.ema_strategy.EMAStrategy"]
    symbols := ["BTC-USD", "ETH-USD"] }

/-! ### Grouping lemmas -/

theorem firstSeenSymbols_append (l : List ResultDict) (r : ResultDict) :
    firstSeenSymbols (l ++ [r]) =
      if r.symbol = "" ∨ r.symbol ∈ firstSeenSymbols l then firstSeenSymbols l
      else firstSeenSymbols l ++ [r.symbol] := by
  simp [firstSeenSymbols, List.foldl_append]

theorem mem_firstSeenSymbols (l : List ResultDict) (s : String) :
    s ∈ firstSeenSymbols l ↔ s ≠ "" ∧ ∃ r ∈ l, r.symbol = s := by
  induction l using List.reverseRecOn generalizing s with
  | nil => simp [firstSeenSymbols]
  | append_singleton l r ih =>
    rw [firstSeenSymbols_append]
    by_cases h : r.symbol = "" ∨ r.symbol ∈ firstSeenSymbols l
    · rw [if_pos h]
      constructor
      · intro hmem
        rcases (ih s).mp hmem with ⟨hne, x, hx, hxs⟩
        exact ⟨hne, x, List.mem_append_left _ hx, hxs⟩
      · rintro ⟨hne, x, hx, hxs⟩
        rcases List.mem_append.mp hx with hx | hx
        · exact (ih s).mpr ⟨hne, x, hx, hxs⟩
        · rw [List.mem_singleton] at hx
          subst hx
          rcases h with h | h
          · exact absurd (hxs.symm.trans h) hne
          · exact hxs ▸ h
    · rw [if_neg h]
      push_neg at h
      obtain ⟨hne_r, hnm⟩ := h
      constructor
      · intro hmem
        rcases List.mem_append.mp hmem with hmem | hmem
        · rcases (ih s).mp hmem with ⟨hne, x, hx, hxs⟩
          exact ⟨hne, x, List.mem_append_left _ hx, hxs⟩
        · rw [List.mem_singleton] at hmem
          subst hmem
          exact ⟨hne_r, r, List.mem_append_right _ (List.mem_singleton.mpr rfl), rfl⟩
      · rintro ⟨hne, x, hx, hxs⟩
        rcases List.mem_append.mp hx with hx | hx
        · exact List.mem_append_left _ ((ih s).mpr ⟨hne, x, hx, hxs⟩)
        · rw [List.mem_singleton] at hx
          subst hx
          exact List.mem_append_right _ (List.mem_singleton.mpr hxs.symm)

theorem groupBySymbol_append (l : List ResultDict) (r : ResultDict) :
    groupBySymbol (l ++ [r]) =
      if r.symbol = "" then groupBySymbol l else addToGroups (groupBySymbol l) r := by
  simp [groupBySymbol, List.foldl_append]

/-- The grouping loop of `aggregate_results` computes exactly: one bucket per
distinct non-empty symbol in first-seen order, each bucket holding the valid
results with that symbol in arrival order. -/
theorem groupBySymbol_eq (l : List ResultDict) :
    groupBySymbol l =
      (firstSeenSymbols l).map (fun s => (s, l.filter (fun x => x.symbol == s))) := by
  induction l using List.reverseRecOn with
  | nil => rfl
  | append_singleton l r ih =>
    have hkeys : (groupBySymbol l).map Prod.fst = firstSeenSymbols l := by
      rw [ih, List.map_map,
        show (Prod.fst ∘ fun s => (s, l.filter (fun x => x.symbol == s))) = id from rfl,
        List.map_id]
    rw [groupBySymbol_append, firstSeenSymbols_append]
    by_cases hs : r.symbol = ""
    · rw [if_pos hs, if_pos (Or.inl hs), ih]
      refine List.map_congr_left fun s hsmem => ?_
      have hne : s ≠ "" := ((mem_firstSeenSymbols l s).mp hsmem).1
      have hrs : ¬ (r.symbol == s) = true := by
        simp only [beq_iff_eq, hs]
        exact fun hc => hne hc.symm
      simp [List.filter_append, List.filter_singleton, hrs]
    · rw [if_neg hs]
      by_cases hmem : r.symbol ∈ firstSeenSymbols l
      · rw [if_pos (Or.inr hmem)]
        rw [addToGroups, if_pos (by rw [hkeys]; exact hmem), ih, List.map_map]
        refine List.map_congr_left fun s hsmem => ?_
        by_cases heq : s = r.symbol
        · subst heq
          simp [List.filter_append, List.filter_singleton]
        · have hrs : ¬ (r.symbol == s) = true := by
            simp only [beq_iff_eq]
            exact fun hc => heq hc.symm
          simp only [Function.comp_apply, if_neg heq]
          simp [List.filter_append, List.filter_singleton, hrs]
      · rw [if_neg (fun hc => hc.elim hs hmem)]
        rw [addToGroups, if_neg (by rw [hkeys]; exact hmem), ih, List.map_append]
        congr 1
        · refine List.map_congr_left fun s hsmem => ?_
          have hrs : ¬ (r.symbol == s) = true := by
            simp only [beq_iff_eq]
            intro hc
            exact hmem (hc ▸ hsmem)
          simp [List.filter_append, List.filter_singleton, hrs]
        · have hfl : l.filter (fun x => x.symbol == r.symbol) = [] := by
            rw [List.filter_eq_nil_iff]
            intro x hx
            simp only [beq_iff_eq]
            intro hc
            exact hmem ((mem_firstSeenSymbols l r.symbol).mpr ⟨hs, x, hx, hc⟩)
          simp [List.filter_append, List.filter_singleton, hfl]

/-- The bucket keys are the distinct non-empty symbols in first-seen order. -/
theorem groupBySymbol_keys (l : List ResultDict) :
    (groupBySymbol l).map Prod.fst = firstSeenSymbols l := by
  rw [groupBySymbol_eq, List.map_map,
    show (Prod.fst ∘ fun s => (s, l.filter (fun x => x.symbol == s))) = id from rfl,
    List.map_id]

/-! ### Aggregation lemmas -/

/-- Re-filtering an already filtered result list (as `process_batch_results`
does before calling `aggregate_results`) changes nothing. -/
theorem aggregate_results_map_some (st : StrategyManagerState)
    (results : List (Option ResultDict)) :
    aggregate_results st ((results.filterMap id).map some) = aggregate_results st results := by
  unfold aggregate_results
  rw [List.filterMap_map]
  simp

/-- An entry of some bucket is exactly a valid result with a non-empty symbol. -/
theorem exists_mem_groupBySymbol_iff (l : List ResultDict) (p : ResultDict → Prop) :
    (∃ g ∈ groupBySymbol l, ∃ e ∈ g.2, p e) ↔ ∃ r ∈ l, r.symbol ≠ "" ∧ p r := by
  rw [groupBySymbol_eq]
  constructor
  · rintro ⟨g, hg, e, he, hp⟩
    rcases List.mem_map.mp hg with ⟨s, hs, rfl⟩
    rcases List.mem_filter.mp he with ⟨hel, hes⟩
    have hsne : s ≠ "" := ((mem_firstSeenSymbols l s).mp hs).1
    have hsym : e.symbol = s := by simpa [beq_iff_eq] using hes
    exact ⟨e, hel, hsym ▸ hsne, hp⟩
  · rintro ⟨r, hr, hne, hp⟩
    refine ⟨(r.symbol, l.filter (fun x => x.symbol == r.symbol)), ?_, r, ?_, hp⟩
    · exact List.mem_map.mpr
        ⟨r.symbol, (mem_firstSeenSymbols l r.symbol).mpr ⟨hne, r, hr, rfl⟩, rfl⟩
    · exact List.mem_filter.mpr ⟨hr, by simp⟩

/-- The publish gate of `process_batch_results` fires exactly when some valid
result carries a non-HOLD signal (provided no valid result has an empty
symbol, which the grouping loop would silently drop). -/
theorem has_actionable_signal_iff (st : StrategyManagerState)
    (flat_results : List (Option ResultDict))
    (h : ∀ r ∈ flat_results.filterMap id, r.symbol ≠ "") :
    _has_actionable_signal (aggregate_results st flat_results) = true ↔
      ∃ r ∈ flat_results.filterMap id, r.signal_type ≠ SignalType.HOLD := by
  unfold _has_actionable_signal
  simp only [aggregate_results, List.any_eq_true, bne_iff_ne]
  constructor
  · rintro ⟨block, hblock, e, he, hne⟩
    rcases List.mem_map.mp hblock with ⟨g, hg, rfl⟩
    exact ((exists_mem_groupBySymbol_iff _ _).mp ⟨g, hg, e, he, hne⟩).imp
      fun r hr => ⟨hr.1, hr.2.2⟩
  · rintro ⟨r, hr, hne⟩
    rcases (exists_mem_groupBySymbol_iff (flat_results.filterMap id)
        (fun e => e.signal_type ≠ SignalType.HOLD)).mpr ⟨r, hr, h r hr, hne⟩ with
      ⟨g, hg, e, he, hpe⟩
    exact ⟨{ symbol := g.1, strategies := g.2 }, List.mem_map.mpr ⟨g, hg, rfl⟩, e, he, hpe⟩

/-! ### Claims -/

/-- Claim C1: for every batch aggregated from an instrument list of size `N` and
a strategy list of size `M` (the chord hands the callback one entry per task,
`N*M` in all, `none` for failed tasks), the summary satisfies
`expected_results = N*M`, `failed_results = expected_results - total_results`,
and `failed_results ≥ 0`. -/
theorem claim_c1_summary_invariants (st : StrategyManagerState)
    (flat_results : List (Option ResultDict))
    (h : flat_results.length = st.symbols.length * st.strategy_class_paths.length) :
    (aggregate_results st flat_results).summary.expected_results
        = st.symbols.length * st.strategy_class_paths.length
    ∧ (aggregate_results st flat_results).summary.failed_results
        = ((aggregate_results st flat_results).summary.expected_results : ℤ)
          - ((aggregate_results st flat_results).summary.total_results : ℤ)
    ∧ 0 ≤ (aggregate_results st flat_results).summary.failed_results := by
  refine ⟨rfl, rfl, ?_⟩
  have hle : (flat_results.filterMap id).length ≤ flat_results.length :=
    List.length_filterMap_le id flat_results
  simp only [aggregate_results]
  omega

/-- Witness for C1 at a concrete two-task batch with one failed task. -/
theorem claim_c1_summary_invariants_witness :
    [some sampleBuy, none].length
        = sampleState.symbols.length * sampleState.strategy_class_paths.length
    ∧ 0 ≤ (aggregate_results sampleState [some sampleBuy, none]).summary.failed_results :=
  ⟨by decide,
    (claim_c1_summary_invariants sampleState [some sampleBuy, none] (by decide)).2.2⟩

/-- Claim C6: every outcome placed in a bucket carries that bucket's symbol; the
buckets appear in first-seen order of the non-empty symbols of the valid
results; within a bucket the outcomes are the valid results with that symbol
in arrival order. -/
theorem claim_c6_grouping (st : StrategyManagerState)
    (flat_results : List (Option ResultDict)) :
    (∀ g ∈ (aggregate_results st flat_results).results,
        ∀ r ∈ g.strategies, r.symbol = g.symbol)
    ∧ (aggregate_results st flat_results).results.map SymbolBlock.symbol
        = firstSeenSymbols (flat_results.filterMap id)
    ∧ ∀ g ∈ (aggregate_results st flat_results).results,
        g.strategies = (flat_results.filterMap id).filter
          (fun r => r.symbol == g.symbol) := by
  have hchar : ∀ g ∈ (aggregate_results st flat_results).results,
      g.strategies = (flat_results.filterMap id).filter
        (fun r => r.symbol == g.symbol) := by
    intro g hg
    simp only [aggregate_results] at hg
    rw [groupBySymbol_eq] at hg
    rcases List.mem_map.mp hg with ⟨q, hq, rfl⟩
    rcases List.mem_map.mp hq with ⟨s, _, rfl⟩
    rfl
  refine ⟨?_, ?_, hchar⟩
  · intro g hg r hr
    rw [hchar g hg] at hr
    have := (List.mem_filter.mp hr).2
    simpa [beq_iff_eq] using this
  · show ((groupBySymbol (flat_results.filterMap id)).map
        (fun g => ({ symbol := g.1, strategies := g.2 } : SymbolBlock))).map
          SymbolBlock.symbol = _
    rw [List.map_map,
      show (SymbolBlock.symbol ∘ fun g : String × List ResultDict =>
        ({ symbol := g.1, strategies := g.2 } : SymbolBlock)) = Prod.fst from rfl,
      groupBySymbol_keys]

/-! ### Batch-processing evaluation lemmas -/

/-- Embedding of `process_batch_results` when the publish gate is open: Redis publish is
attempted (never raising past `publish_batch_complete`), the aggregate gains
the `pubsub` key, and the Mongo insertion outcome decides success or a
propagated error. -/
theorem process_batch_results_pos (st : StrategyManagerState)
    (results : List (Option ResultDict)) (pub ins : Except String ℕ) (now : ℕ)
    (hsig : _has_actionable_signal (aggregate_results st results) = true) :
    process_batch_results st results pub ins now =
      { result := match ins with
          | .error e => .error e
          | .ok oid => .ok { batch_id := some oid
                             summary := some (aggregate_results st results).summary
                             skipped := none, reason := none }
        notifyCalled := true
        persistCalled := true
        persistedData := some { aggregate_results st results with
          pubsub := some (publish_batch_complete pub).subscriber_count } } := by
  simp only [process_batch_results, aggregate_results_map_some, hsig]
  cases ins <;> rfl

/-- Embedding of `process_batch_results` on an all-HOLD aggregate: skipped result with the
summary still computed, no Sink operation invoked. -/
theorem process_batch_results_neg (st : StrategyManagerState)
    (results : List (Option ResultDict)) (pub ins : Except String ℕ) (now : ℕ)
    (hsig : _has_actionable_signal (aggregate_results st results) = false) :
    process_batch_results st results pub ins now =
      { result := .ok { batch_id := none
                        summary := some (aggregate_results st results).summary
                        skipped := some true
                        reason := some "No actionable signals detected" }
        notifyCalled := false
        persistCalled := false
        persistedData := none } := by
  simp only [process_batch_results, aggregate_results_map_some, hsig]
  rfl

/-- Claim C2: the Sink's notify and persist are invoked iff some outcome of the
batch carries a non-HOLD signal; an all-HOLD batch returns a skipped result
with the summary still computed and neither Sink operation invoked.  (The
hypothesis excludes outcomes with an empty instrument, which the grouping
loop drops and no strategy produces.) -/
theorem claim_c2_publish_gate (st : StrategyManagerState)
    (results : List (Option ResultDict)) (pub ins : Except String ℕ) (now : ℕ)
    (h : ∀ r ∈ results.filterMap id, r.symbol ≠ "") :
    ((process_batch_results st results pub ins now).notifyCalled = true
        ∧ (process_batch_results st results pub ins now).persistCalled = true ↔
      ∃ r ∈ results.filterMap id, r.signal_type ≠ SignalType.HOLD)
    ∧ ((∀ r ∈ results.filterMap id, r.signal_type = SignalType.HOLD) →
        (process_batch_results st results pub ins now).result
          = .ok { batch_id := none
                  summary := some (aggregate_results st results).summary
                  skipped := some true
                  reason := some "No actionable signals detected" }
        ∧ (process_batch_results st results pub ins now).notifyCalled = false
        ∧ (process_batch_results st results pub ins now).persistCalled = false) := by
  cases hsig : _has_actionable_signal (aggregate_results st results) with
  | true =>
    rw [process_batch_results_pos st results pub ins now hsig]
    constructor
    · constructor
      · intro _
        exact (has_actionable_signal_iff st results h).mp hsig
      · intro _
        exact ⟨rfl, rfl⟩
    · intro hall
      exfalso
      rcases (has_actionable_signal_iff st results h).mp hsig with ⟨r, hr, hne⟩
      exact hne (hall r hr)
  | false =>
    rw [process_batch_results_neg st results pub ins now hsig]
    constructor
    · constructor
      · rintro ⟨hc, _⟩
        exact absurd hc (by simp)
      · intro hex
        have := (has_actionable_signal_iff st results h).mpr hex
        rw [hsig] at this
        cases this
    · intro _
      exact ⟨rfl, rfl, rfl⟩

/-- Witness for C2: a batch with one BUY and one HOLD outcome invokes both
Sink operations. -/
theorem claim_c2_publish_gate_witness :
    (∀ r ∈ [some sampleBuy, some sampleHold].filterMap id, r.symbol ≠ "")
    ∧ ((process_batch_results sampleState [some sampleBuy, some sampleHold]
          (.ok 1) (.ok 1) 0).notifyCalled = true
        ∧ (process_batch_results sampleState [some sampleBuy, some sampleHold]
          (.ok 1) (.ok 1) 0).persistCalled = true ↔
      ∃ r ∈ [some sampleBuy, some sampleHold].filterMap id,
        r.signal_type ≠ SignalType.HOLD) :=
  ⟨by decide,
    (claim_c2_publish_gate sampleState [some sampleBuy, some sampleHold]
      (.ok 1) (.ok 1) 0 (by decide)).1⟩

/-- Counterexample to claim C5: on a batch with an actionable signal, a raising
notify (Redis publish) does not propagate — the cycle still succeeds, because
`publish_batch_complete` converts the exception into a `"failed"` response
dict. -/
theorem claim_c5_counterexample :
    (process_batch_results sampleState [some sampleBuy]
        (.error "redis down") (.ok 1) 0).result
      = .ok { batch_id := some 1
              summary := some (aggregate_results sampleState [some sampleBuy]).summary
              skipped := none, reason := none } := by
  rfl

/-- Claim C5 as amended: a persist (Mongo insert) error propagates to the caller
of `process_batch_results` and fails the cycle; a notify (Redis publish) error
is swallowed inside `publish_batch_complete` — the cycle proceeds to persist
with `subscriber_count` 0 and succeeds. -/
theorem claim_c5_amended (st : StrategyManagerState)
    (results : List (Option ResultDict)) (pub : Except String ℕ)
    (e em : String) (oid now : ℕ)
    (hsig : _has_actionable_signal (aggregate_results st results) = true) :
    (process_batch_results st results pub (.error e) now).result = .error e
    ∧ (process_batch_results st results (.error em) (.ok oid) now).result
        = .ok { batch_id := some oid
                summary := some (aggregate_results st results).summary
                skipped := none, reason := none }
    ∧ (process_batch_results st results (.error em) (.ok oid) now).persistedData
        = some { aggregate_results st results with pubsub := some 0 } := by
  refine ⟨?_, ?_, ?_⟩
  · rw [process_batch_results_pos st results pub (.error e) now hsig]
  · rw [process_batch_results_pos st results (.error em) (.ok oid) now hsig]
  · rw [process_batch_results_pos st results (.error em) (.ok oid) now hsig]
    rfl

/-- Witness for the amended C5 at a concrete actionable batch. -/
theorem claim_c5_amended_witness :
    _has_actionable_signal (aggregate_results sampleState [some sampleBuy]) = true
    ∧ (process_batch_results sampleState [some sampleBuy]
        (.ok 3) (.error "mongo down") 0).result = .error "mongo down" :=
  ⟨by decide,
    (claim_c5_amended sampleState [some sampleBuy] (.ok 3) "mongo down" "x" 1 0
      (by decide)).1⟩

/-- Counterexample to claim C8: the data handed to the persistence step is not the
aggregate the Aggregator constructed — `process_batch_results` has added the
`pubsub` key to it in the meantime. -/
theorem claim_c8_counterexample :
    (process_batch_results sampleState [some sampleBuy] (.ok 2) (.ok 1) 0).persistCalled
        = true
    ∧ (process_batch_results sampleState [some sampleBuy] (.ok 2) (.ok 1) 0).persistedData
        ≠ some (aggregate_results sampleState [some sampleBuy]) := by
  constructor
  · rfl
  · intro hc
    have : (some { aggregate_results sampleState [some sampleBuy] with
        pubsub := some 2 } : Option AggregatedResult)
        = some (aggregate_results sampleState [some sampleBuy]) := hc
    simpa [aggregate_results] using congrArg (fun o => o.map AggregatedResult.pubsub) this

/-- Claim C8 as amended: the aggregate's summary and groups are never modified
after construction; the single later change is `process_batch_results` adding
the `pubsub` key (the notify subscriber count) before persisting, and the
Sink's persist wraps the aggregate unchanged in a fresh document. -/
theorem claim_c8_amended (st : StrategyManagerState)
    (results : List (Option ResultDict)) (pub ins : Except String ℕ) (now : ℕ) :
    ((process_batch_results st results pub ins now).persistedData
      = if _has_actionable_signal (aggregate_results st results) = true then
          some { aggregate_results st results with
                 pubsub := some (publish_batch_complete pub).subscriber_count }
        else none)
    ∧ ∀ b : AggregatedResult, (save_batch_results ins now b).2.data = b := by
  constructor
  · cases hsig : _has_actionable_signal (aggregate_results st results) with
    | true =>
      rw [process_batch_results_pos st results pub ins now hsig, if_pos rfl]
    | false =>
      rw [process_batch_results_neg st results pub ins now hsig]
      simp
  · intro b
    rfl

/-! ### Retry envelope lemmas -/

/-- The retry loop performs at most one execution per unit of retry budget
beyond the initial one. -/
theorem retryLoop_attempts_le {α : Type} (draw : ℕ → ℕ) (evalAttempt : ℕ → Except String α) :
    ∀ (retriesLeft i : ℕ),
      (retryLoop draw evalAttempt retriesLeft i).attempts ≤ i + retriesLeft + 1 := by
  intro retriesLeft
  induction retriesLeft with
  | zero =>
    intro i
    show (retryLoop draw evalAttempt 0 i).attempts ≤ i + 0 + 1
    unfold retryLoop
    cases evalAttempt i <;> simp
  | succ r ih =>
    intro i
    show (retryLoop draw evalAttempt (r + 1) i).attempts ≤ i + (r + 1) + 1
    unfold retryLoop
    cases h : evalAttempt i with
    | ok a => simp
    | error e =>
      have := ih (i + 1)
      simp only [h]
      omega

/-- Counterexample to claim C3: a task whose body raises on every execution is
executed 4 times, not at most 3 — Celery's `max_retries=3` bounds the retries
after the initial attempt.  (The random stream is irrelevant to the attempt
count; any fixed one exhibits the failure.) -/
theorem claim_c3_counterexample :
    (execute_strategy_task_envelope (fun _ => 0)
        (fun _ => (.error "boom" : Except String ResultDict))).attempts = 4
    ∧ ¬ (execute_strategy_task_envelope (fun _ => 0)
        (fun _ => (.error "boom" : Except String ResultDict))).attempts ≤ 3 := by
  decide

/-- Claim C3 as amended: an exception escaping the task body triggers retries
with exponential backoff whose countdown cap doubles from a 1s base (caps 1s,
2s, 4s), the actual countdown being a jittered random draw in `[0, cap]`
(`retry_jitter` keeps its default `True`); at most 4 total attempts are made
(the initial execution plus `max_retries = 3` retries); when every attempt
fails the task contributes no result dict (absence — a `none` entry, not a
placeholder), and a batch containing such an absent entry is processed
exactly as if the entry were not there, so the batch is not aborted. -/
theorem claim_c3_amended (draw : ℕ → ℕ) (evalAttempt : ℕ → Except String ResultDict)
    (h : ∀ i, ∃ e, evalAttempt i = .error e) :
    (execute_strategy_task_envelope draw evalAttempt).outcome = none
    ∧ (execute_strategy_task_envelope draw evalAttempt).attempts = 4
    ∧ (execute_strategy_task_envelope draw evalAttempt).delays.length = 3
    ∧ (∀ i d, (execute_strategy_task_envelope draw evalAttempt).delays[i]? = some d →
        d ≤ 2 ^ i)
    ∧ (∀ (d : ℕ → ℕ) (g : ℕ → Except String ResultDict),
        (execute_strategy_task_envelope d g).attempts ≤ 4)
    ∧ ∀ (st : StrategyManagerState) (rest : List (Option ResultDict))
        (pub ins : Except String ℕ) (now : ℕ),
        process_batch_results st (none :: rest) pub ins now
          = process_batch_results st rest pub ins now := by
  obtain ⟨e0, he0⟩ := h 0
  obtain ⟨e1, he1⟩ := h 1
  obtain ⟨e2, he2⟩ := h 2
  obtain ⟨e3, he3⟩ := h 3
  have htrace : execute_strategy_task_envelope draw evalAttempt =
      { outcome := none, attempts := 4
        delays := [draw 0 % (2 ^ 0 + 1), draw 1 % (2 ^ 1 + 1), draw 2 % (2 ^ 2 + 1)] } := by
    simp [execute_strategy_task_envelope, execute_strategy_task_max_retries,
      retryLoop, he0, he1, he2, he3]
  refine ⟨by rw [htrace], by rw [htrace], by rw [htrace]; rfl, ?_, ?_, ?_⟩
  · intro i d hd
    rw [htrace] at hd
    rcases i with _ | _ | _ | i
    · simp at hd
      have hlt : draw 0 % (2 ^ 0 + 1) < 2 ^ 0 + 1 := Nat.mod_lt _ (by positivity)
      omega
    · simp at hd
      have hlt : draw 1 % (2 ^ 1 + 1) < 2 ^ 1 + 1 := Nat.mod_lt _ (by positivity)
      omega
    · simp at hd
      have hlt : draw 2 % (2 ^ 2 + 1) < 2 ^ 2 + 1 := Nat.mod_lt _ (by positivity)
      omega
    · simp at hd
  · intro d g
    exact retryLoop_attempts_le d g execute_strategy_task_max_retries 0
  · intro st rest pub ins now
    have hfm : (none :: rest).filterMap (id : Option ResultDict → Option ResultDict)
        = rest.filterMap id := by simp
    simp only [process_batch_results, hfm]

/-- Witness for the amended C3 at a concrete always-failing task body and a
concrete random stream. -/
theorem claim_c3_amended_witness :
    (∀ i : ℕ, ∃ e, (fun _ : ℕ => (Except.error "boom" : Except String ResultDict)) i
        = .error e)
    ∧ (execute_strategy_task_envelope (fun _ => 3)
        (fun _ : ℕ => (Except.error "boom" : Except String ResultDict))).outcome = none
    ∧ (execute_strategy_task_envelope (fun _ => 3)
        (fun _ : ℕ => (Except.error "boom" : Except String ResultDict))).delays.length = 3 :=
  ⟨fun _ => ⟨"boom", rfl⟩,
    (claim_c3_amended (fun _ => 3) _ (fun _ => ⟨"boom", rfl⟩)).1,
    (claim_c3_amended (fun _ => 3) _ (fun _ => ⟨"boom", rfl⟩)).2.2.1⟩

/-! ### Dispatcher lemmas -/

/-- The dispatcher generates exactly `|symbols| × |strategies|` signatures. -/
theorem create_task_signatures_length (st : StrategyManagerState) :
    (create_task_signatures_with_numbering st).length
      = st.symbols.length * st.strategy_class_paths.length := by
  simp [create_task_signatures_with_numbering, List.length_flatMap,
    Function.comp_def, mul_comm]

/-- Counterexample to claim C4: triggering twice in the same process with the same
configuration does not behave like two independent fresh batches — the second
trigger runs on the singleton's accumulated lists (4 tasks instead of 1). -/
theorem claim_c4_counterexample :
    (trigger_batch_execution
        (trigger_batch_execution none ["BTC-USD"]
          ["app.strategies.ema_strategy.EMAStrategy"]).state
        ["BTC-USD"] ["app.strategies.ema_strategy.EMAStrategy"]).output
      ≠ (trigger_batch_execution none ["BTC-USD"]
          ["app.strategies.ema_strategy.EMAStrategy"]).output := by
  decide

/-- Claim C4 as amended: within one process the `StrategyManager` singleton's
mutable lists are carried over between batch cycles: a trigger leaves the
process state holding the previously accumulated symbols and strategies with
the newly configured ones appended, and the following cycle generates its
tasks from these accumulated lists (task count = product of the accumulated
lengths), not from the configuration alone. -/
theorem claim_c4_amended (p : Option StrategyManagerState)
    (symbols strategies : List String) :
    (trigger_batch_execution p symbols strategies).state
      = some { strategy_class_paths :=
                 (strategyManagerInstance p).strategy_class_paths ++ strategies
               symbols := (strategyManagerInstance p).symbols ++ symbols }
    ∧ (create_task_signatures_with_numbering
        (strategyManagerInstance (trigger_batch_execution p symbols strategies).state)).length
      = ((strategyManagerInstance p).symbols.length + symbols.length)
        * ((strategyManagerInstance p).strategy_class_paths.length + strategies.length) := by
  have hstate : (trigger_batch_execution p symbols strategies).state
      = some { strategy_class_paths :=
                 (strategyManagerInstance p).strategy_class_paths ++ strategies
               symbols := (strategyManagerInstance p).symbols ++ symbols } := by
    simp only [trigger_batch_execution]
    split <;> rfl
  refine ⟨hstate, ?_⟩
  rw [hstate]
  rw [show strategyManagerInstance (some
      { strategy_class_paths := (strategyManagerInstance p).strategy_class_paths ++ strategies
        symbols := (strategyManagerInstance p).symbols ++ symbols })
    = { strategy_class_paths := (strategyManagerInstance p).strategy_class_paths ++ strategies
        symbols := (strategyManagerInstance p).symbols ++ symbols } from rfl]
  rw [create_task_signatures_length]
  simp [List.length_append]

/-- Counterexample to claim C9: the skipped result of an empty-configuration
trigger carries no summary dict at all, so in particular no summary with
`expected_outcomes = 0`. -/
theorem claim_c9_counterexample :
    ¬ ∃ s : Summary,
      (trigger_batch_execution none [] ["app.strategies.ema_strategy.EMAStrategy"]).output.summary
          = some s
        ∧ s.expected_results = 0 := by
  rintro ⟨s, hs, _⟩
  have hnone : (trigger_batch_execution none []
      ["app.strategies.ema_strategy.EMAStrategy"]).output.summary = none := rfl
  rw [hnone] at hs
  cases hs

/-- Claim C9 as amended: on a process with no previously accumulated
configuration, an empty instrument or strategy list yields an empty task set
and the trigger returns the skipped result
`{"status": "skipped", "reason": "empty_batch"}` — with no summary — without
raising, and without submitting the chord, so the Sink is never invoked. -/
theorem claim_c9_amended (symbols strategies : List String)
    (h : symbols = [] ∨ strategies = []) :
    create_task_signatures_with_numbering
        (add_strategies (add_symbols (strategyManagerInstance none) symbols) strategies) = []
    ∧ trigger_batch_execution none symbols strategies
        = { state := some (add_strategies (add_symbols (strategyManagerInstance none) symbols)
              strategies)
            output := { status := "skipped", reason := some "empty_batch"
                        tasks_count := none, summary := none }
            chord_submitted := false } := by
  have htasks : create_task_signatures_with_numbering
      (add_strategies (add_symbols (strategyManagerInstance none) symbols) strategies) = [] := by
    rcases h with h | h <;> subst h <;>
      simp [create_task_signatures_with_numbering, add_strategies, add_symbols,
        strategyManagerInstance]
  refine ⟨htasks, ?_⟩
  simp only [trigger_batch_execution, htasks, List.isEmpty_nil, if_true]

/-- Witness for the amended C9 with an empty symbol list. -/
theorem claim_c9_amended_witness :
    (([] : List String) = [] ∨ (["app.strategies.ema_strategy.EMAStrategy"] : List String) = [])
    ∧ trigger_batch_execution none [] ["app.strategies.ema_strategy.EMAStrategy"]
        = { state := some (add_strategies (add_symbols (strategyManagerInstance none) [])
              ["app.strategies.ema_strategy.EMAStrategy"])
            output := { status := "skipped", reason := some "empty_batch"
                        tasks_count := none, summary := none }
            chord_submitted := false } :=
  ⟨Or.inl rfl,
    (claim_c9_amended [] ["app.strategies.ema_strategy.EMAStrategy"] (Or.inl rfl)).2⟩

/-! ### Cache claims -/

/-- Claim C7: a cache read after `put(k, v, t)` and before `t` has elapsed
returns `v` (whatever entry `k` previously held — the put overwrites it); a
read once `t` has elapsed is a miss.  Stated both for the general `setex` the
code performs and for the repo's fixed-TTL wrappers. -/
theorem claim_c7_cache_roundtrip {α : Type} (store : RedisStore α) (k : String)
    (v : α) (t now now2 : ℕ) :
    (now2 < now + t →
      _get_from_cache (redis_setex store k t (pickle_dumps v) now) k now2 = some v)
    ∧ (now + t ≤ now2 →
      _get_from_cache (redis_setex store k t (pickle_dumps v) now) k now2 = none)
    ∧ (now2 < now + CACHE_DURATION →
      _get_from_cache (_save_to_cache store k v now) k now2 = some v)
    ∧ (now + CACHE_DURATION ≤ now2 →
      _get_from_cache (_save_to_cache store k v now) k now2 = none) := by
  have hget : ∀ ttl : ℕ,
      _get_from_cache (redis_setex store k ttl (pickle_dumps v) now) k now2
        = if now2 < now + ttl then some v else none := by
    intro ttl
    unfold _get_from_cache redis_get redis_setex
    rw [List.find?_cons_of_pos _ (by simp)]
    dsimp only
    by_cases hlt : now2 < now + ttl
    · rw [if_pos hlt, if_pos hlt]
      rfl
    · rw [if_neg hlt, if_neg hlt]
      rfl
  exact ⟨fun h => by rw [hget t, if_pos h],
    fun h => by rw [hget t, if_neg (not_lt.mpr h)],
    fun h => by rw [show _save_to_cache store k v now
        = redis_setex store k CACHE_DURATION (pickle_dumps v) now from rfl,
      hget CACHE_DURATION, if_pos h],
    fun h => by rw [show _save_to_cache store k v now
        = redis_setex store k CACHE_DURATION (pickle_dumps v) now from rfl,
      hget CACHE_DURATION, if_neg (not_lt.mpr h)]⟩

/-- Witness for C7: a concrete put/get round trip at the edge of the 300s TTL. -/
theorem claim_c7_cache_roundtrip_witness :
    ((299 : ℕ) < 0 + CACHE_DURATION
      ∧ _get_from_cache (_save_to_cache ([] : RedisStore ℕ)
          (_get_cache_key "BTCUSD" 30 "15m") 42 0) (_get_cache_key "BTCUSD" 30 "15m") 299
        = some 42)
    ∧ (0 + CACHE_DURATION ≤ (300 : ℕ)
      ∧ _get_from_cache (_save_to_cache ([] : RedisStore ℕ)
          (_get_cache_key "BTCUSD" 30 "15m") 42 0) (_get_cache_key "BTCUSD" 30 "15m") 300
        = none) :=
  ⟨⟨by decide,
    (claim_c7_cache_roundtrip ([] : RedisStore ℕ) (_get_cache_key "BTCUSD" 30 "15m")
      42 CACHE_DURATION 0 299).2.2.1 (by decide)⟩,
   ⟨by decide,
    (claim_c7_cache_roundtrip ([] : RedisStore ℕ) (_get_cache_key "BTCUSD" 30 "15m")
      42 CACHE_DURATION 0 300).2.2.2 (by decide)⟩⟩

/-- Claim C10: every `StrategyResult` constructed without an explicit timestamp
(as `EMAStrategy.execute` does) receives the single default computed when the
models module was imported; two results produced at different wall-clock
times in the same process carry equal `timestamp` values, independent of
their production times. -/
theorem claim_c10_shared_timestamp (import_time : ℕ) (n1 s1 n2 s2 : ℕ)
    (sym1 sym2 : String) (sig1 sig2 : SignalType) (c1 c2 : ℚ) (p1 p2 : Option ℚ) :
    (emaStrategyExecuteResult import_time n1 s1 sym1 sig1 c1 p1).timestamp
        = (emaStrategyExecuteResult import_time n2 s2 sym2 sig2 c2 p2).timestamp
    ∧ (emaStrategyExecuteResult import_time n1 s1 sym1 sig1 c1 p1).timestamp = import_time
    ∧ ∀ (name sym : String) (sig : SignalType) (c e : ℚ) (pr : Option ℚ)
        (su : Option Bool),
        (mkStrategyResult import_time name sym sig c e pr su none).timestamp = import_time :=
  ⟨rfl, rfl, fun _ _ _ _ _ _ _ => rfl⟩

end CeleryStrategies
